import Mathlib

/-
Verification of the boehm_gc allocator adapter (src/lib.rs, src/sys.rs).

The adapter is a thin layer: every public function performs at most one
call to a collector-engine primitive declared in sys.rs and forwards the
engine's answer unchanged.  We embed each adapter function as the engine
call it issues (`EngineCall`), and give the external collector engine an
explicit state-transition semantics (`EngineState`, `engineApply`) modelled
from the specification, since the engine itself is not part of this
repository's sources.
-/

namespace BoehmGC

/-- Pointers are modelled as natural numbers; `0` is the null pointer. -/
abbrev Ptr := Nat

/-- Finalizer callbacks and out-of-memory handlers are opaque function
identifiers; their code is never inspected by the adapter. -/
abbrev Callback := Nat

/-- The three finalizer modes of `lib.rs` (`FinalizerMode`): `Standard`,
`IgnoreSelf` and `NoOrder`. -/
inductive FinalizerMode where
  | Standard
  | IgnoreSelf
  | NoOrder
deriving DecidableEq

/-- The collector-engine primitives declared in `sys.rs`, each with the
arguments the adapter passes.  `set_GC_oom_fn` stands for the assignment to
the extern mutable `GC_oom_fn` slot. -/
inductive EngineCall where
  | GC_malloc (nbytes : Nat)
  | GC_malloc_uncollectable (nbytes : Nat)
  | GC_realloc (old : Ptr) (newSize : Nat)
  | GC_free (dead : Ptr)
  | GC_gcollect
  | GC_register_finalizer (p : Ptr) (finalizer : Callback) (clientData : Ptr)
      (oldFinalizer : Ptr) (oldClientData : Ptr)
  | GC_register_finalizer_ignore_self (p : Ptr) (finalizer : Callback) (clientData : Ptr)
      (oldFinalizer : Ptr) (oldClientData : Ptr)
  | GC_register_finalizer_no_order (p : Ptr) (finalizer : Callback) (clientData : Ptr)
      (oldFinalizer : Ptr) (oldClientData : Ptr)
  | GC_get_heap_size
  | GC_get_free_bytes
  | GC_get_bytes_since_gc
  | GC_get_total_bytes
  | GC_enable
  | GC_disable
  | set_GC_oom_fn (h : Callback)
deriving DecidableEq

/-- What an engine primitive hands back to its caller: a pointer, a size,
nothing, or — for the finalizer-registration primitives when the caller
passed non-null out-parameters — the previous finalizer record written
through those out-parameters. -/
inductive EngineResponse where
  | ptr (p : Ptr)
  | size (n : Nat)
  | unit
  | prev (old : Option (Callback × Ptr))
deriving DecidableEq

/-- One block of the engine heap: its address, its size in bytes, whether
it is currently free, and whether it is subject to collection
(`GC_malloc`) or not (`GC_malloc_uncollectable`). -/
structure HeapBlock where
  addr : Ptr
  size : Nat
  isFree : Bool
  collectable : Bool
deriving DecidableEq

/-- Modelled from the spec: the observable state of the external Collector
Engine (sys.rs declares its primitives but its state lives outside this
repository).  It owns the heap blocks, the finalizer-record table (at most
one active record per pointer, found by `List.lookup`), the
Collection-Enable Counter, the process-wide Out-of-Memory Handler slot,
and the allocation statistics.  `memLimit` bounds the bytes the engine can
hand out, so that allocation exhaustion is representable; `nextAddr` is
the next fresh block address. -/
structure EngineState where
  blocks : List HeapBlock
  nextAddr : Ptr
  memLimit : Nat
  finalizers : List (Ptr × (Callback × Ptr))
  disableCount : Int
  oomFn : Option Callback
  bytesSinceGc : Nat
  totalBytes : Nat
deriving DecidableEq

/-- Total number of bytes in the engine heap (`GC_get_heap_size`):
every block counts, free or not, matching "including empty blocks and
fragmentation loss". -/
def heapSizeVal (s : EngineState) : Nat :=
  (s.blocks.map HeapBlock.size).sum

/-- Number of free bytes in the engine heap (`GC_get_free_bytes`): the
bytes of the blocks currently marked free. -/
def freeBytesVal (s : EngineState) : Nat :=
  ((s.blocks.filter HeapBlock.isFree).map HeapBlock.size).sum

/-- Bytes of the engine heap currently in use (non-free blocks). -/
def usedBytesVal (s : EngineState) : Nat :=
  ((s.blocks.filter (fun b => !b.isFree)).map HeapBlock.size).sum

/-- Modelled from the spec: the engine can satisfy a request of `n` bytes
when the bytes in use plus `n` stay within its memory limit; otherwise the
allocation primitives fail by returning null. -/
def canSatisfy (s : EngineState) (n : Nat) : Bool :=
  usedBytesVal s + n ≤ s.memLimit

/-- Modelled from the spec: engine allocation.  On success a fresh block
is added to the heap and its (non-null) address returned; on exhaustion
the state is unchanged and the null pointer is returned (propagated, not
retried). -/
def allocBlock (s : EngineState) (n : Nat) (coll : Bool) : EngineState × EngineResponse :=
  if canSatisfy s n then
    ({ s with
        blocks := s.blocks ++ [⟨s.nextAddr, n, false, coll⟩],
        nextAddr := s.nextAddr + n + 1,
        bytesSinceGc := s.bytesSinceGc + n,
        totalBytes := s.totalBytes + n }, .ptr s.nextAddr)
  else (s, .ptr 0)

/-- Modelled from the spec: `GC_free` marks the block at the given address
free. -/
def freeBlock (s : EngineState) (p : Ptr) : EngineState :=
  { s with blocks := s.blocks.map (fun b => if b.addr = p then { b with isFree := true } else b) }

/-- Modelled from the spec: `GC_realloc` resizes without guaranteeing
address stability — it obtains a new block and releases the old one, so
the address may change; on exhaustion it returns null and leaves the state
unchanged. -/
def reallocBlock (s : EngineState) (p : Ptr) (n : Nat) : EngineState × EngineResponse :=
  if canSatisfy s n then
    let res := allocBlock s n false
    (freeBlock res.1 p, res.2)
  else (s, .ptr 0)

/-- Modelled from the spec: the engine's finalizer registration.  It
replaces the pointer's record with the new one; when the caller passed a
non-null out-parameter, the previous record (or its absence) is written
back through it, which we model as the `prev` response; with both
out-parameters null the previous record is discarded and the response is
`unit`. -/
def registerFinalizerEngine (s : EngineState) (p : Ptr) (f : Callback) (d : Ptr)
    (oldF oldD : Ptr) : EngineState × EngineResponse :=
  let old := s.finalizers.lookup p
  let s' := { s with finalizers := (p, (f, d)) :: s.finalizers.filter (fun e => e.1 ≠ p) }
  (s', if oldF = 0 ∧ oldD = 0 then .unit else .prev old)

/-- Modelled from the spec: the state-transition semantics of each engine
primitive.  Collection (`GC_gcollect`) reclaims unreachable collectable
memory only when the Collection-Enable Counter is zero; reachability is
not modelled (no claim depends on which blocks are reclaimed), so the pass
is represented by resetting the bytes-since-collection statistic.
`GC_disable` increments the counter, `GC_enable` decrements it, and the
`GC_oom_fn` assignment replaces the handler slot. -/
def engineApply (s : EngineState) (c : EngineCall) : EngineState × EngineResponse :=
  match c with
  | .GC_malloc n => allocBlock s n true
  | .GC_malloc_uncollectable n => allocBlock s n false
  | .GC_realloc p n => reallocBlock s p n
  | .GC_free p => (freeBlock s p, .unit)
  | .GC_gcollect =>
      (if s.disableCount = 0 then { s with bytesSinceGc := 0 } else s, .unit)
  | .GC_register_finalizer p f d oF oD => registerFinalizerEngine s p f d oF oD
  | .GC_register_finalizer_ignore_self p f d oF oD => registerFinalizerEngine s p f d oF oD
  | .GC_register_finalizer_no_order p f d oF oD => registerFinalizerEngine s p f d oF oD
  | .GC_get_heap_size => (s, .size (heapSizeVal s))
  | .GC_get_free_bytes => (s, .size (freeBytesVal s))
  | .GC_get_bytes_since_gc => (s, .size s.bytesSinceGc)
  | .GC_get_total_bytes => (s, .size s.totalBytes)
  | .GC_enable => ({ s with disableCount := s.disableCount - 1 }, .unit)
  | .GC_disable => ({ s with disableCount := s.disableCount + 1 }, .unit)
  | .set_GC_oom_fn h => ({ s with oomFn := some h }, .unit)

/-- From `lib.rs`: `__rust_allocate(size, _)` calls
`GC_malloc_uncollectable(size)`; the alignment argument is discarded. -/
def __rust_allocate (size align : Nat) : EngineCall :=
  .GC_malloc_uncollectable size

/-- From `lib.rs`: `__rust_deallocate(ptr, _, _)` calls `GC_free(ptr)`;
old size and alignment are discarded. -/
def __rust_deallocate (p : Ptr) (oldSize align : Nat) : EngineCall :=
  .GC_free p

/-- From `lib.rs`: `__rust_reallocate(ptr, _, size, _)` calls
`GC_realloc(ptr, size)`; old size and alignment are discarded. -/
def __rust_reallocate (p : Ptr) (oldSize newSize align : Nat) : EngineCall :=
  .GC_realloc p newSize

/-- From `lib.rs`: `__rust_reallocate_inplace(ptr, _, size, _)` calls
`GC_realloc(ptr, size)`, exactly as `__rust_reallocate` does. -/
def __rust_reallocate_inplace (p : Ptr) (oldSize newSize align : Nat) : EngineCall :=
  .GC_realloc p newSize

/-- From `lib.rs`: `__rust_usable_size(size, _)` returns `size` with no
engine call; the alignment argument is discarded. -/
def __rust_usable_size (size align : Nat) : Nat :=
  size

/-- From `lib.rs`: `gc_allocate(size)` calls `GC_malloc(size)`. -/
def gc_allocate (size : Nat) : EngineCall :=
  .GC_malloc size

/-- From `lib.rs`: `register_finalizer(ptr, finalizer, data, mode)`
dispatches on the mode to one of the three registration primitives,
passing `ptr`, `finalizer` and `data` through and null (`0`) for both
out-parameters. -/
def register_finalizer (p : Ptr) (f : Callback) (d : Ptr) (mode : FinalizerMode) : EngineCall :=
  match mode with
  | .Standard => .GC_register_finalizer p f d 0 0
  | .IgnoreSelf => .GC_register_finalizer_ignore_self p f d 0 0
  | .NoOrder => .GC_register_finalizer_no_order p f d 0 0

/-- The public operations of the adapter, with their arguments. -/
inductive AdapterOp where
  | allocate (size align : Nat)
  | deallocate (p : Ptr) (oldSize align : Nat)
  | reallocate (p : Ptr) (oldSize newSize align : Nat)
  | reallocateInplace (p : Ptr) (oldSize newSize align : Nat)
  | usableSize (size align : Nat)
  | gcAllocate (size : Nat)
  | gcCollect
  | registerFinalizer (p : Ptr) (f : Callback) (d : Ptr) (mode : FinalizerMode)
  | heapSize
  | freeBytes
  | bytesSinceGc
  | totalBytes
  | gcEnable
  | gcDisable
  | setOomFn (h : Callback)
deriving DecidableEq

/-- The engine calls each public adapter operation performs, in order,
read off the body of the corresponding `lib.rs` function: every operation
is a single engine call, except `__rust_usable_size`, which performs
none. -/
def adapterCalls : AdapterOp → List EngineCall
  | .allocate size align => [__rust_allocate size align]
  | .deallocate p o a => [__rust_deallocate p o a]
  | .reallocate p o n a => [__rust_reallocate p o n a]
  | .reallocateInplace p o n a => [__rust_reallocate_inplace p o n a]
  | .usableSize _ _ => []
  | .gcAllocate size => [gc_allocate size]
  | .gcCollect => [.GC_gcollect]
  | .registerFinalizer p f d m => [register_finalizer p f d m]
  | .heapSize => [.GC_get_heap_size]
  | .freeBytes => [.GC_get_free_bytes]
  | .bytesSinceGc => [.GC_get_bytes_since_gc]
  | .totalBytes => [.GC_get_total_bytes]
  | .gcEnable => [.GC_enable]
  | .gcDisable => [.GC_disable]
  | .setOomFn h => [.set_GC_oom_fn h]

/-- Performs a list of engine calls in order, starting from a state, and
keeps the last call's response (`unit` when there is none). -/
def runCalls (s : EngineState) (cs : List EngineCall) : EngineState × EngineResponse :=
  cs.foldl (fun acc c => engineApply acc.1 c) (s, .unit)

/-- Semantics of one public adapter operation: `__rust_usable_size`
computes locally and leaves the engine untouched; every other operation
performs its engine calls in order and forwards the engine's final
response unchanged, exactly as the one-line `lib.rs` bodies do. -/
def runOp (s : EngineState) (op : AdapterOp) : EngineState × EngineResponse :=
  match op with
  | .usableSize size align => (s, .size (__rust_usable_size size align))
  | op => runCalls s (adapterCalls op)

/-- The engine state at process start: empty heap, empty finalizer table,
Collection-Enable Counter at zero, Out-of-Memory Handler unset, with a
given memory limit. -/
def initState (limit : Nat) : EngineState :=
  { blocks := []
    nextAddr := 1
    memLimit := limit
    finalizers := []
    disableCount := 0
    oomFn := none
    bytesSinceGc := 0
    totalBytes := 0 }

/-- States of the system reachable from some initial state through the
public adapter operations. -/
inductive Reachable : EngineState → Prop where
  | init (limit : Nat) : Reachable (initState limit)
  | step (s : EngineState) (op : AdapterOp) : Reachable s → Reachable (runOp s op).1

/-- Collection is permitted exactly when the Collection-Enable Counter is
zero. -/
def collectionPermitted (s : EngineState) : Prop :=
  s.disableCount = 0

instance (s : EngineState) : Decidable (collectionPermitted s) := by
  unfold collectionPermitted; infer_instance

/-- State transition of one `gc_disable()` call. -/
def gcDisableState (s : EngineState) : EngineState :=
  (runOp s .gcDisable).1

/-- State transition of one `gc_enable()` call. -/
def gcEnableState (s : EngineState) : EngineState :=
  (runOp s .gcEnable).1

/-- A concrete engine state whose finalizer table holds an active record
for pointer `1`, with callback `5` and data `7`. -/
def exFinState : EngineState :=
  { initState 100 with finalizers := [(1, (5, 7))] }

/-- The free blocks of a heap are among all its blocks, so their bytes sum
to at most the total. -/
theorem sum_filter_free_le (l : List HeapBlock) :
    ((l.filter HeapBlock.isFree).map HeapBlock.size).sum ≤ (l.map HeapBlock.size).sum := by
  induction l with
  | nil => simp
  | cons b bs ih =>
      by_cases h : b.isFree <;> simp [List.filter_cons, h] <;> omega

/-- One `gc_disable()` call increments the Collection-Enable Counter. -/
theorem gcDisableState_count (s : EngineState) :
    (gcDisableState s).disableCount = s.disableCount + 1 := rfl

/-- One `gc_enable()` call decrements the Collection-Enable Counter. -/
theorem gcEnableState_count (s : EngineState) :
    (gcEnableState s).disableCount = s.disableCount - 1 := rfl

/-- Iterating `gc_disable()` `n` times adds `n` to the counter. -/
theorem disable_iter_count (s : EngineState) (n : Nat) :
    (gcDisableState^[n] s).disableCount = s.disableCount + n := by
  induction n with
  | zero => simp
  | succ k ih =>
      rw [Function.iterate_succ_apply', gcDisableState_count, ih]
      push_cast
      ring

/-- Iterating `gc_enable()` `n` times subtracts `n` from the counter. -/
theorem enable_iter_count (s : EngineState) (n : Nat) :
    (gcEnableState^[n] s).disableCount = s.disableCount - n := by
  induction n with
  | zero => simp
  | succ k ih =>
      rw [Function.iterate_succ_apply', gcEnableState_count, ih]
      push_cast
      ring

/-- C1 counterexample: in a state where pointer `1` has an active record
with callback `5` and data `7`, re-registering through the adapter yields
`unit` to the caller — the previous finalizer/data pair is not an artifact
of the call, because `lib.rs` passes null for both out-parameters. -/
theorem register_finalizer_prev_not_yielded :
    exFinState.finalizers.lookup 1 = some (5, 7) ∧
    (runOp exFinState (.registerFinalizer 1 9 11 .Standard)).2 = .unit ∧
    (runOp exFinState (.registerFinalizer 1 9 11 .Standard)).2 ≠ .prev (some (5, 7)) := by
  refine ⟨rfl, rfl, ?_⟩
  decide

/-- C1 amended: registering a finalizer for a pointer that already has an
active record replaces the record with the new one, but the previous
finalizer/data pair is discarded — the adapter passes null out-parameters
and returns unit, so the caller receives nothing. -/
theorem register_finalizer_replaces_and_discards (s : EngineState) (p : Ptr) (f : Callback)
    (d : Ptr) (m : FinalizerMode) :
    ((runOp s (.registerFinalizer p f d m)).1).finalizers.lookup p = some (f, d) ∧
    (runOp s (.registerFinalizer p f d m)).2 = .unit := by
  cases m <;>
    simp [runOp, runCalls, adapterCalls, register_finalizer, engineApply,
      registerFinalizerEngine, List.lookup]

/-- C2: `__rust_reallocate` and `__rust_reallocate_inplace` have identical
semantics — for every input tuple they issue the same `GC_realloc` engine
call and produce the same state and result. -/
theorem reallocate_inplace_same :
    (∀ p o n a, __rust_reallocate p o n a = __rust_reallocate_inplace p o n a) ∧
    (∀ s p o n a, runOp s (.reallocate p o n a) = runOp s (.reallocateInplace p o n a)) :=
  ⟨fun _ _ _ _ => rfl, fun _ _ _ _ _ => rfl⟩

/-- C3: `usable_size` returns the requested size unchanged for every size
and alignment; in particular, for every size `s > 0`, calling `allocate(s)`
and then `usable_size(s)` yields a value at least `s`. -/
theorem usable_size_requested :
    (∀ size align, __rust_usable_size size align = size) ∧
    (∀ s size align, 0 < size →
      ∃ v, (runOp (runOp s (.allocate size align)).1 (.usableSize size align)).2 = .size v ∧
        size ≤ v) :=
  ⟨fun _ _ => rfl, fun _ size _ _ => ⟨size, rfl, Nat.le_refl size⟩⟩

/-- C3 witness at size `4`, alignment `8`. -/
theorem usable_size_requested_witness :
    0 < 4 ∧
    ∃ v, (runOp (runOp (initState 100) (.allocate 4 8)).1 (.usableSize 4 8)).2 = .size v ∧
      4 ≤ v :=
  ⟨by decide, usable_size_requested.2 (initState 100) 4 8 (by decide)⟩

/-- C4: when the engine cannot satisfy a request, `allocate` and
`reallocate` return the engine's null result unchanged, leave the state as
the engine left it, and perform exactly one engine call — no retry, no
local recovery. -/
theorem null_result_propagated (s : EngineState) (p : Ptr) (size oldSize align : Nat)
    (h : canSatisfy s size = false) :
    runOp s (.allocate size align) = (s, .ptr 0) ∧
    runOp s (.reallocate p oldSize size align) = (s, .ptr 0) ∧
    (adapterCalls (.allocate size align)).length = 1 ∧
    (adapterCalls (.reallocate p oldSize size align)).length = 1 := by
  refine ⟨?_, ?_, rfl, rfl⟩
  · simp [runOp, runCalls, adapterCalls, __rust_allocate, engineApply, allocBlock, h]
  · simp [runOp, runCalls, adapterCalls, __rust_reallocate, engineApply, reallocBlock, h]

/-- C4 witness: an engine with memory limit `0` cannot satisfy a one-byte
request, and the adapter forwards the null result. -/
theorem null_result_propagated_witness :
    canSatisfy (initState 0) 1 = false ∧
    runOp (initState 0) (.allocate 1 8) = (initState 0, .ptr 0) :=
  ⟨by decide, (null_result_propagated (initState 0) 3 1 2 8 (by decide)).1⟩

/-- C6: `register_finalizer` dispatches each mode to the matching engine
registration variant, passing target, finalizer and data through
unchanged (with null out-parameters). -/
theorem register_finalizer_mode_dispatch (p : Ptr) (f : Callback) (d : Ptr) :
    register_finalizer p f d .Standard = .GC_register_finalizer p f d 0 0 ∧
    register_finalizer p f d .IgnoreSelf = .GC_register_finalizer_ignore_self p f d 0 0 ∧
    register_finalizer p f d .NoOrder = .GC_register_finalizer_no_order p f d 0 0 :=
  ⟨rfl, rfl, rfl⟩

/-- C7: at every reachable state, `heap_size()` is at least `free_bytes()`
— the heap is a superset of its free space. -/
theorem heap_size_ge_free_bytes (s : EngineState) (_hs : Reachable s) :
    ∃ h f, (runOp s .heapSize).2 = .size h ∧ (runOp s .freeBytes).2 = .size f ∧ f ≤ h :=
  ⟨heapSizeVal s, freeBytesVal s, rfl, rfl, sum_filter_free_le s.blocks⟩

/-- C7 witness at the initial state. -/
theorem heap_size_ge_free_bytes_witness :
    ∃ h f, (runOp (initState 0) .heapSize).2 = .size h ∧
      (runOp (initState 0) .freeBytes).2 = .size f ∧ f ≤ h :=
  heap_size_ge_free_bytes (initState 0) (Reachable.init 0)

/-- C9: the alignment arguments of all five allocator-hook operations and
the old-size arguments of `deallocate`, `reallocate` and
`reallocate_inplace` are discarded — calls differing only there issue the
same engine call and produce the same state and result. -/
theorem discarded_params_no_effect :
    (∀ size a a', adapterCalls (.allocate size a) = adapterCalls (.allocate size a')) ∧
    (∀ p o o' a a', adapterCalls (.deallocate p o a) = adapterCalls (.deallocate p o' a')) ∧
    (∀ p o o' n a a', adapterCalls (.reallocate p o n a) = adapterCalls (.reallocate p o' n a')) ∧
    (∀ p o o' n a a',
      adapterCalls (.reallocateInplace p o n a) = adapterCalls (.reallocateInplace p o' n a')) ∧
    (∀ s size a a', runOp s (.allocate size a) = runOp s (.allocate size a')) ∧
    (∀ s p o o' a a', runOp s (.deallocate p o a) = runOp s (.deallocate p o' a')) ∧
    (∀ s p o o' n a a', runOp s (.reallocate p o n a) = runOp s (.reallocate p o' n a')) ∧
    (∀ s p o o' n a a',
      runOp s (.reallocateInplace p o n a) = runOp s (.reallocateInplace p o' n a')) ∧
    (∀ s size a a', runOp s (.usableSize size a) = runOp s (.usableSize size a')) :=
  ⟨fun _ _ _ => rfl, fun _ _ _ _ _ => rfl, fun _ _ _ _ _ _ => rfl, fun _ _ _ _ _ _ => rfl,
   fun _ _ _ _ => rfl, fun _ _ _ _ _ _ => rfl, fun _ _ _ _ _ _ _ => rfl,
   fun _ _ _ _ _ _ _ => rfl, fun _ _ _ _ => rfl⟩

/-- C5: `gc_disable()` increments and `gc_enable()` decrements the
Collection-Enable Counter, collection is permitted exactly when the
counter is zero, and from an enabled state `n` disables followed by
`n - 1` enables leave collection disabled while one further enable
re-enables it. -/
theorem gc_counter_roundtrip (s : EngineState) (n : Nat) (h1 : 1 ≤ n)
    (h0 : collectionPermitted s) :
    (∀ t, (gcDisableState t).disableCount = t.disableCount + 1) ∧
    (∀ t, (gcEnableState t).disableCount = t.disableCount - 1) ∧
    (∀ t, collectionPermitted t ↔ t.disableCount = 0) ∧
    ¬ collectionPermitted (gcEnableState^[n - 1] (gcDisableState^[n] s)) ∧
    collectionPermitted (gcEnableState (gcEnableState^[n - 1] (gcDisableState^[n] s))) := by
  have h0' : s.disableCount = 0 := h0
  refine ⟨fun t => rfl, fun t => rfl, fun t => Iff.rfl, ?_, ?_⟩
  · show ¬ (gcEnableState^[n - 1] (gcDisableState^[n] s)).disableCount = 0
    rw [enable_iter_count, disable_iter_count, h0']
    omega
  · show (gcEnableState (gcEnableState^[n - 1] (gcDisableState^[n] s))).disableCount = 0
    rw [gcEnableState_count, enable_iter_count, disable_iter_count, h0']
    omega

/-- C5 witness at `n = 2` from the initial state. -/
theorem gc_counter_roundtrip_witness :
    ¬ collectionPermitted (gcEnableState^[2 - 1] (gcDisableState^[2] (initState 0))) ∧
    collectionPermitted
      (gcEnableState (gcEnableState^[2 - 1] (gcDisableState^[2] (initState 0)))) :=
  ⟨(gc_counter_roundtrip (initState 0) 2 (by decide) rfl).2.2.2.1,
   (gc_counter_roundtrip (initState 0) 2 (by decide) rfl).2.2.2.2⟩

/-- Engine allocation never touches the Out-of-Memory Handler slot. -/
theorem allocBlock_oomFn (s : EngineState) (n : Nat) (c : Bool) :
    ((allocBlock s n c).1).oomFn = s.oomFn := by
  unfold allocBlock
  split <;> rfl

/-- Engine free never touches the Out-of-Memory Handler slot. -/
theorem freeBlock_oomFn (s : EngineState) (p : Ptr) :
    (freeBlock s p).oomFn = s.oomFn := rfl

/-- Engine resize never touches the Out-of-Memory Handler slot. -/
theorem reallocBlock_oomFn (s : EngineState) (p : Ptr) (n : Nat) :
    ((reallocBlock s p n).1).oomFn = s.oomFn := by
  unfold reallocBlock
  split
  · rw [freeBlock_oomFn, allocBlock_oomFn]
  · rfl

/-- Every engine primitive other than the `GC_oom_fn` assignment leaves
the Out-of-Memory Handler slot unchanged. -/
theorem engineApply_oomFn (s : EngineState) (c : EngineCall)
    (h : ∀ k, c ≠ EngineCall.set_GC_oom_fn k) :
    ((engineApply s c).1).oomFn = s.oomFn := by
  cases c with
  | GC_malloc n => exact allocBlock_oomFn s n true
  | GC_malloc_uncollectable n => exact allocBlock_oomFn s n false
  | GC_realloc p n => exact reallocBlock_oomFn s p n
  | GC_free p => exact freeBlock_oomFn s p
  | GC_gcollect =>
      show ((if s.disableCount = 0 then { s with bytesSinceGc := 0 } else s)).oomFn = s.oomFn
      split <;> rfl
  | GC_register_finalizer p f d oF oD => rfl
  | GC_register_finalizer_ignore_self p f d oF oD => rfl
  | GC_register_finalizer_no_order p f d oF oD => rfl
  | GC_get_heap_size => rfl
  | GC_get_free_bytes => rfl
  | GC_get_bytes_since_gc => rfl
  | GC_get_total_bytes => rfl
  | GC_enable => rfl
  | GC_disable => rfl
  | set_GC_oom_fn k => exact absurd rfl (h k)

/-- C8: the Out-of-Memory Handler is unset in the initial state, a
`set_oom_fn(h)` call makes it `h`, and no other public operation of the
adapter modifies it. -/
theorem oom_fn_lifecycle :
    (∀ limit, (initState limit).oomFn = none) ∧
    (∀ s h, ((runOp s (.setOomFn h)).1).oomFn = some h) ∧
    (∀ (s : EngineState) (op : AdapterOp),
      (∀ h, op ≠ AdapterOp.setOomFn h) → ((runOp s op).1).oomFn = s.oomFn) := by
  refine ⟨fun _ => rfl, fun _ _ => rfl, ?_⟩
  intro s op hne
  cases op with
  | allocate size align =>
      exact engineApply_oomFn s (__rust_allocate size align) (fun k hk => EngineCall.noConfusion hk)
  | deallocate p o a =>
      exact engineApply_oomFn s (__rust_deallocate p o a) (fun k hk => EngineCall.noConfusion hk)
  | reallocate p o n a =>
      exact engineApply_oomFn s (__rust_reallocate p o n a) (fun k hk => EngineCall.noConfusion hk)
  | reallocateInplace p o n a =>
      exact engineApply_oomFn s (__rust_reallocate_inplace p o n a)
        (fun k hk => EngineCall.noConfusion hk)
  | usableSize size align => rfl
  | gcAllocate size =>
      exact engineApply_oomFn s (gc_allocate size) (fun k hk => EngineCall.noConfusion hk)
  | gcCollect =>
      exact engineApply_oomFn s .GC_gcollect (fun k hk => EngineCall.noConfusion hk)
  | registerFinalizer p f d m =>
      cases m with
      | Standard =>
          exact engineApply_oomFn s (.GC_register_finalizer p f d 0 0)
            (fun k hk => EngineCall.noConfusion hk)
      | IgnoreSelf =>
          exact engineApply_oomFn s (.GC_register_finalizer_ignore_self p f d 0 0)
            (fun k hk => EngineCall.noConfusion hk)
      | NoOrder =>
          exact engineApply_oomFn s (.GC_register_finalizer_no_order p f d 0 0)
            (fun k hk => EngineCall.noConfusion hk)
  | heapSize => rfl
  | freeBytes => rfl
  | bytesSinceGc => rfl
  | totalBytes => rfl
  | gcEnable => rfl
  | gcDisable => rfl
  | setOomFn h => exact absurd rfl (hne h)

/-- C8 witness: a collection pass leaves the handler of the initial state
unchanged. -/
theorem oom_fn_lifecycle_witness :
    ((runOp (initState 0) .gcCollect).1).oomFn = (initState 0).oomFn :=
  oom_fn_lifecycle.2.2 (initState 0) .gcCollect (fun _ hk => AdapterOp.noConfusion hk)

/-- C10 counterexample: `usable_size` performs no engine call at all, so
"returns after its single engine call" fails for it. -/
theorem usable_size_makes_no_engine_call :
    (adapterCalls (.usableSize 8 8)).length ≠ 1 := by
  decide

/-- C10 amended: every public adapter operation is a total function —
in particular the mode dispatch of `register_finalizer` is exhaustive and
size zero or null pointers are accepted — performing at most one engine
call; an operation with an engine call returns right after it with the
engine's answer, and `usable_size`, the one operation without, leaves the
engine state untouched. -/
theorem adapter_total_and_single_call (op : AdapterOp) (s : EngineState) :
    (adapterCalls op).length ≤ 1 ∧
    (runOp s op).1 = (runCalls s (adapterCalls op)).1 ∧
    (∀ c, adapterCalls op = [c] → runOp s op = engineApply s c) := by
  cases op with
  | usableSize size align =>
      exact ⟨Nat.zero_le 1, rfl, fun c hc => by simp [adapterCalls] at hc⟩
  | registerFinalizer p f d m =>
      refine ⟨by cases m <;> exact Nat.le_refl 1, by cases m <;> rfl, fun c hc => ?_⟩
      cases m <;> (simp [adapterCalls] at hc; subst hc; rfl)
  | allocate size align =>
      refine ⟨Nat.le_refl 1, rfl, fun c hc => ?_⟩
      simp [adapterCalls] at hc; subst hc; rfl
  | deallocate p o a =>
      refine ⟨Nat.le_refl 1, rfl, fun c hc => ?_⟩
      simp [adapterCalls] at hc; subst hc; rfl
  | reallocate p o n a =>
      refine ⟨Nat.le_refl 1, rfl, fun c hc => ?_⟩
      simp [adapterCalls] at hc; subst hc; rfl
  | reallocateInplace p o n a =>
      refine ⟨Nat.le_refl 1, rfl, fun c hc => ?_⟩
      simp [adapterCalls] at hc; subst hc; rfl
  | gcAllocate size =>
      refine ⟨Nat.le_refl 1, rfl, fun c hc => ?_⟩
      simp [adapterCalls] at hc; subst hc; rfl
  | gcCollect =>
      refine ⟨Nat.le_refl 1, rfl, fun c hc => ?_⟩
      simp [adapterCalls] at hc; subst hc; rfl
  | heapSize =>
      refine ⟨Nat.le_refl 1, rfl, fun c hc => ?_⟩
      simp [adapterCalls] at hc; subst hc; rfl
  | freeBytes =>
      refine ⟨Nat.le_refl 1, rfl, fun c hc => ?_⟩
      simp [adapterCalls] at hc; subst hc; rfl
  | bytesSinceGc =>
      refine ⟨Nat.le_refl 1, rfl, fun c hc => ?_⟩
      simp [adapterCalls] at hc; subst hc; rfl
  | totalBytes =>
      refine ⟨Nat.le_refl 1, rfl, fun c hc => ?_⟩
      simp [adapterCalls] at hc; subst hc; rfl
  | gcEnable =>
      refine ⟨Nat.le_refl 1, rfl, fun c hc => ?_⟩
      simp [adapterCalls] at hc; subst hc; rfl
  | gcDisable =>
      refine ⟨Nat.le_refl 1, rfl, fun c hc => ?_⟩
      simp [adapterCalls] at hc; subst hc; rfl
  | setOomFn h =>
      refine ⟨Nat.le_refl 1, rfl, fun c hc => ?_⟩
      simp [adapterCalls] at hc; subst hc; rfl

/-- C10 amended witness: `gc_collect` returns right after its single
`GC_gcollect` engine call. -/
theorem adapter_total_and_single_call_witness :
    runOp (initState 0) .gcCollect = engineApply (initState 0) .GC_gcollect :=
  (adapter_total_and_single_call .gcCollect (initState 0)).2.2 .GC_gcollect rfl

end BoehmGC
